import Mathlib

/-!
Verification development for the AirShare engine core
(`discovery/discovery.go`, `server/server.go`, `main.go`).

The Go sources are embedded shallowly:

* `BeaconPacket`, `Peer` mirror the wire/registry structs of
  `discovery.go`.
* The Go map `d.peers` is modelled as an association list with unique
  keys; `upsert` is the map assignment `d.peers[id] = peer`.
* `processBeacon` is one iteration of `startListener`'s receive loop
  after a datagram has been decoded (self-filter, registry update,
  `[PEER_FOUND]` / `[GRAB_UPDATE]` emission); `processSeq` folds it over
  a sequence of received datagrams.
* Grab state (`SetGrab`, `ClearGrab`, `IsHolding`) and the beacon the
  broadcaster builds on each tick are modelled as pure state passing.
* The HTTP handler `handleFileServe`, `DownloadFile`, and the stdin
  command loop `listenForCommands` are modelled with their environment
  (shared directory contents, HTTP response, input line) as explicit
  arguments.
-/

namespace AirShare

/-- `BeaconPacket` from `discovery.go`: the payload broadcast by each
device. -/
structure BeaconPacket where
  deviceId : String
  deviceName : String
  servicePort : Nat
  isHolding : Bool
  heldFile : String
  deriving DecidableEq, Repr

/-- `Peer` from `discovery.go`: a discovered peer as stored in the
registry. -/
structure Peer where
  id : String
  ip : String
  name : String
  isHolding : Bool
  heldFile : String
  deriving DecidableEq, Repr

/-- The peer the listener builds from a received packet: `id`, `name`
and the grab fields come from the payload, `ip` from the transport
source address (`remoteAddr.IP.String()`). -/
def mkPeer (srcIP : String) (pkt : BeaconPacket) : Peer :=
  { id := pkt.deviceId
  , ip := srcIP
  , name := pkt.deviceName
  , isHolding := pkt.isHolding
  , heldFile := pkt.heldFile }

/-- The Go map `d.peers : map[string]*Peer`, modelled as an association
list. -/
abbrev Registry := List (String × Peer)

/-- Map lookup `d.peers[k]`. -/
def rlookup (k : String) : Registry → Option Peer
  | [] => none
  | e :: rest => if e.1 = k then some e.2 else rlookup k rest

/-- Map assignment `d.peers[k] = p`: replace the entry if the key is
present, append otherwise. -/
def upsert (r : Registry) (k : String) (p : Peer) : Registry :=
  if k ∈ r.map Prod.fst then
    r.map (fun e => if e.1 = k then (k, p) else e)
  else
    r ++ [(k, p)]

/-- The events `startListener` prints to stdout. -/
inductive Event where
  | peerFound (p : Peer)
  | grabUpdate (p : Peer)
  deriving DecidableEq, Repr

/-- One iteration of `startListener`'s loop body after a datagram from
`ip` decoded to `pkt`: drop own broadcasts, otherwise store the rebuilt
peer and emit `[PEER_FOUND]` for a new id, `[GRAB_UPDATE]` when the grab
fields changed, nothing otherwise. -/
def processBeacon (localId : String) (r : Registry) (ip : String)
    (pkt : BeaconPacket) : Registry × List Event :=
  if pkt.deviceId = localId then
    (r, [])
  else
    (upsert r pkt.deviceId (mkPeer ip pkt),
     match rlookup pkt.deviceId r with
     | none => [Event.peerFound (mkPeer ip pkt)]
     | some old =>
         if old.isHolding ≠ pkt.isHolding ∨ old.heldFile ≠ pkt.heldFile then
           [Event.grabUpdate (mkPeer ip pkt)]
         else [])

/-- The listener over a sequence of received datagrams, each a source
address paired with a decoded packet; returns the final registry and
the concatenated event trace. -/
def processSeq (localId : String) (r : Registry) :
    List (String × BeaconPacket) → Registry × List Event
  | [] => (r, [])
  | m :: rest =>
      let step := processBeacon localId r m.1 m.2
      let next := processSeq localId step.1 rest
      (next.1, step.2 ++ next.2)

/-! ### Registry lemmas -/

theorem rlookup_append (k : String) (r s : Registry) :
    rlookup k (r ++ s) =
      match rlookup k r with
      | some v => some v
      | none => rlookup k s := by
  induction r with
  | nil => simp [rlookup]
  | cons e rest ih =>
      by_cases h : e.1 = k <;> simp [rlookup, h, ih]

theorem rlookup_eq_none_of_not_mem (k : String) (r : Registry)
    (h : k ∉ r.map Prod.fst) : rlookup k r = none := by
  induction r with
  | nil => rfl
  | cons e rest ih =>
      simp only [List.map_cons, List.mem_cons, not_or] at h
      have h1 : ¬ e.1 = k := fun he => h.1 he.symm
      simp [rlookup, h1, ih h.2]

theorem rlookup_map_replace_self (k : String) (p : Peer) :
    ∀ r : Registry, k ∈ r.map Prod.fst →
      rlookup k (r.map (fun e => if e.1 = k then (k, p) else e)) = some p := by
  intro r
  induction r with
  | nil => intro h; simp at h
  | cons e rest ih =>
      intro hmem
      by_cases he : e.1 = k
      · simp [rlookup, he]
      · have hmem' : k ∈ rest.map Prod.fst := by
          simp only [List.map_cons, List.mem_cons] at hmem
          rcases hmem with h1 | h2
          · exact absurd h1.symm he
          · exact h2
        simp [rlookup, he, ih hmem']

theorem rlookup_map_replace_ne (k k' : String) (p : Peer) (h : k' ≠ k) :
    ∀ r : Registry,
      rlookup k' (r.map (fun e => if e.1 = k then (k, p) else e)) =
        rlookup k' r := by
  intro r
  induction r with
  | nil => rfl
  | cons e rest ih =>
      by_cases he : e.1 = k
      · have h1 : ¬ ((k : String) = k') := fun hk => h hk.symm
        have h2 : ¬ (e.1 = k') := fun hk => h (hk.symm.trans he)
        simp [rlookup, he, h1, h2, ih]
      · simp [rlookup, he, ih]

theorem rlookup_upsert_self (r : Registry) (k : String) (p : Peer) :
    rlookup k (upsert r k p) = some p := by
  unfold upsert
  by_cases hmem : k ∈ r.map Prod.fst
  · simp only [hmem, if_true]
    exact rlookup_map_replace_self k p r hmem
  · simp only [hmem, if_false]
    rw [rlookup_append, rlookup_eq_none_of_not_mem k r hmem]
    simp [rlookup]

theorem rlookup_upsert_ne (r : Registry) (k k' : String) (p : Peer)
    (h : k' ≠ k) : rlookup k' (upsert r k p) = rlookup k' r := by
  unfold upsert
  by_cases hmem : k ∈ r.map Prod.fst
  · simp only [hmem, if_true]
    exact rlookup_map_replace_ne k k' p h r
  · simp only [hmem, if_false]
    rw [rlookup_append]
    have hkk : ¬ ((k : String) = k') := fun hk => h hk.symm
    have hsingle : rlookup k' [(k, p)] = none := by
      simp [rlookup, hkk]
    cases hr : rlookup k' r <;> simp [hsingle]

theorem keys_upsert_of_mem (r : Registry) (k : String) (p : Peer)
    (h : k ∈ r.map Prod.fst) :
    (upsert r k p).map Prod.fst = r.map Prod.fst := by
  unfold upsert
  simp only [h, if_true, List.map_map]
  apply List.map_congr_left
  intro e _
  by_cases he : e.1 = k <;> simp [he]

theorem nodup_keys_upsert (r : Registry) (k : String) (p : Peer)
    (h : (r.map Prod.fst).Nodup) :
    ((upsert r k p).map Prod.fst).Nodup := by
  by_cases hmem : k ∈ r.map Prod.fst
  · rw [keys_upsert_of_mem r k p hmem]; exact h
  · unfold upsert
    simp only [hmem, if_false, List.map_append]
    simp [List.nodup_append, h, hmem]

/-- The registry after one listener step: unchanged for a self packet,
otherwise the map assignment. -/
theorem processBeacon_registry (localId : String) (r : Registry)
    (ip : String) (pkt : BeaconPacket) :
    (processBeacon localId r ip pkt).1 =
      if pkt.deviceId = localId then r
      else upsert r pkt.deviceId (mkPeer ip pkt) := by
  unfold processBeacon
  by_cases h : pkt.deviceId = localId <;> simp [h]

theorem nodup_keys_processBeacon (localId : String) (r : Registry)
    (ip : String) (pkt : BeaconPacket)
    (h : (r.map Prod.fst).Nodup) :
    (((processBeacon localId r ip pkt).1).map Prod.fst).Nodup := by
  rw [processBeacon_registry]
  by_cases hc : pkt.deviceId = localId
  · simpa [hc]
  · simpa [hc] using nodup_keys_upsert r pkt.deviceId (mkPeer ip pkt) h

theorem nodup_keys_processSeq (localId : String)
    (msgs : List (String × BeaconPacket)) :
    ∀ r : Registry, (r.map Prod.fst).Nodup →
      (((processSeq localId r msgs).1).map Prod.fst).Nodup := by
  induction msgs with
  | nil => intro r h; simpa [processSeq]
  | cons m rest ih =>
      intro r h
      simp only [processSeq]
      exact ih _ (nodup_keys_processBeacon localId r m.1 m.2 h)

/-- Splitting a processed sequence at a point. -/
theorem processSeq_append (localId : String) (r : Registry)
    (a b : List (String × BeaconPacket)) :
    processSeq localId r (a ++ b) =
      ((processSeq localId (processSeq localId r a).1 b).1,
       (processSeq localId r a).2 ++
         (processSeq localId (processSeq localId r a).1 b).2) := by
  induction a generalizing r with
  | nil => simp [processSeq]
  | cons m rest ih => simp [processSeq, ih]

/-- Datagrams from other device ids never touch the entry for `d`. -/
theorem rlookup_processSeq_untouched (localId d : String)
    (msgs : List (String × BeaconPacket))
    (h : ∀ m ∈ msgs, m.2.deviceId ≠ d) :
    ∀ r : Registry,
      rlookup d (processSeq localId r msgs).1 = rlookup d r := by
  induction msgs with
  | nil => intro r; simp [processSeq]
  | cons m rest ih =>
      intro r
      simp only [processSeq]
      rw [ih (fun x hx => h x (List.mem_cons_of_mem _ hx))]
      rw [processBeacon_registry]
      by_cases hc : m.2.deviceId = localId
      · simp [hc]
      · simp only [hc, if_false]
        exact rlookup_upsert_ne r m.2.deviceId d (mkPeer m.1 m.2)
          (fun hk => h m (List.mem_cons_self _ _) hk.symm)

/-! ### Event counting -/

/-- Whether an emitted event is a `[PEER_FOUND]` line for device `d`. -/
def isPeerFoundFor (d : String) : Event → Bool
  | .peerFound p => decide (p.id = d)
  | .grabUpdate _ => false

/-- Number of `[PEER_FOUND]` events for device `d` in a trace. -/
def countPeerFound (d : String) (evs : List Event) : Nat :=
  (evs.filter (isPeerFoundFor d)).length

theorem countPeerFound_append (d : String) (a b : List Event) :
    countPeerFound d (a ++ b) = countPeerFound d a + countPeerFound d b := by
  simp [countPeerFound, List.filter_append]

/-- The events of one listener step, as a single expression. -/
theorem processBeacon_events (localId : String) (r : Registry)
    (ip : String) (pkt : BeaconPacket) :
    (processBeacon localId r ip pkt).2 =
      if pkt.deviceId = localId then []
      else
        match rlookup pkt.deviceId r with
        | none => [Event.peerFound (mkPeer ip pkt)]
        | some old =>
            if old.isHolding ≠ pkt.isHolding ∨ old.heldFile ≠ pkt.heldFile then
              [Event.grabUpdate (mkPeer ip pkt)]
            else [] := by
  unfold processBeacon
  by_cases h : pkt.deviceId = localId <;> simp [h]

/-- Master counting lemma: starting from any registry, the trace of a
datagram sequence contains one `[PEER_FOUND]` for `d` exactly when `d`
is not yet registered and some datagram carries it. -/
theorem countPeerFound_processSeq (localId d : String) (hd : d ≠ localId) :
    ∀ msgs : List (String × BeaconPacket), ∀ r : Registry,
      countPeerFound d (processSeq localId r msgs).2 =
        if (rlookup d r).isSome then 0
        else if msgs.any (fun m => m.2.deviceId == d) then 1 else 0 := by
  intro msgs
  induction msgs with
  | nil =>
      intro r
      cases hr : rlookup d r <;> simp [processSeq, countPeerFound, hr]
  | cons m rest ih =>
      intro r
      simp only [processSeq]
      rw [countPeerFound_append, ih]
      by_cases hlocal : m.2.deviceId = localId
      · have hstep : processBeacon localId r m.1 m.2 = (r, []) := by
          simp [processBeacon, hlocal]
        have hmd : ¬ (m.2.deviceId = d) := fun h => hd (h.symm.trans hlocal)
        have hne : (m.2.deviceId == d) = false := by simpa using hmd
        rw [hstep]
        simp only [countPeerFound, List.filter_nil, List.length_nil,
          Nat.zero_add, List.any_cons, hne, Bool.false_or]
      · have hreg : (processBeacon localId r m.1 m.2).1 =
            upsert r m.2.deviceId (mkPeer m.1 m.2) := by
          rw [processBeacon_registry]; simp [hlocal]
        by_cases hmd : m.2.deviceId = d
        · have hfind : rlookup d (processBeacon localId r m.1 m.2).1 =
              some (mkPeer m.1 m.2) := by
            rw [hreg, ← hmd]
            exact rlookup_upsert_self r m.2.deviceId (mkPeer m.1 m.2)
          cases hr : rlookup d r with
          | some old =>
              have hold : rlookup m.2.deviceId r = some old := by
                rw [hmd]; exact hr
              have hev : countPeerFound d
                  (processBeacon localId r m.1 m.2).2 = 0 := by
                rw [processBeacon_events]
                simp only [hlocal, if_false, hold]
                by_cases hch : old.isHolding ≠ m.2.isHolding ∨
                    old.heldFile ≠ m.2.heldFile <;>
                  simp [hch, countPeerFound, isPeerFoundFor]
              rw [hev, hfind]
              simp [hr]
          | none =>
              have hold : rlookup m.2.deviceId r = none := by
                rw [hmd]; exact hr
              have hev : countPeerFound d
                  (processBeacon localId r m.1 m.2).2 = 1 := by
                rw [processBeacon_events]
                simp only [hlocal, if_false, hold]
                simp [countPeerFound, isPeerFoundFor, mkPeer, hmd]
              have hbeq : (m.2.deviceId == d) = true := by simp [hmd]
              rw [hev, hfind]
              simp [hr, hbeq]
        · have hne : (m.2.deviceId == d) = false := by simpa using hmd
          have hev : countPeerFound d
              (processBeacon localId r m.1 m.2).2 = 0 := by
            rw [processBeacon_events]
            simp only [hlocal, if_false]
            cases hold : rlookup m.2.deviceId r with
            | none => simp [countPeerFound, isPeerFoundFor, mkPeer, hmd]
            | some old =>
                by_cases hch : old.isHolding ≠ m.2.isHolding ∨
                    old.heldFile ≠ m.2.heldFile <;>
                  simp [hch, countPeerFound, isPeerFoundFor]
          have hsame : rlookup d (processBeacon localId r m.1 m.2).1 =
              rlookup d r := by
            rw [hreg]
            exact rlookup_upsert_ne r m.2.deviceId d (mkPeer m.1 m.2)
              (fun h => hmd h.symm)
          rw [hev, hsame]
          simp only [Nat.zero_add, List.any_cons, hne, Bool.false_or]

/-! ### Claims about the listener -/

/-- C1: for every sequence of received beacons, the registry never has
two entries with the same `deviceId`, and the entry for a device is
exactly the peer built from its most recent beacon (`ip` from the
transport source address) — last-writer-wins. -/
theorem listener_registry_lww (localId : String)
    (msgs : List (String × BeaconPacket)) :
    (((processSeq localId [] msgs).1).map Prod.fst).Nodup ∧
    ∀ pre : List (String × BeaconPacket), ∀ ip : String,
      ∀ pkt : BeaconPacket, ∀ post : List (String × BeaconPacket),
        msgs = pre ++ (ip, pkt) :: post →
        pkt.deviceId ≠ localId →
        (∀ m ∈ post, m.2.deviceId ≠ pkt.deviceId) →
        rlookup pkt.deviceId (processSeq localId [] msgs).1 =
          some (mkPeer ip pkt) := by
  constructor
  · exact nodup_keys_processSeq localId msgs [] (by simp)
  · intro pre ip pkt post hsplit hself hpost
    subst hsplit
    rw [processSeq_append]
    simp only [processSeq]
    rw [rlookup_processSeq_untouched localId pkt.deviceId post hpost]
    rw [processBeacon_registry]
    simp [hself, rlookup_upsert_self]

theorem listener_registry_lww_witness :
    rlookup "dev-a"
      (processSeq "me" []
        [("10.0.0.7",
          { deviceId := "dev-a", deviceName := "Alice", servicePort := 8080
          , isHolding := false, heldFile := "" })]).1 =
      some (mkPeer "10.0.0.7"
        { deviceId := "dev-a", deviceName := "Alice", servicePort := 8080
        , isHolding := false, heldFile := "" }) :=
  (listener_registry_lww "me"
      [("10.0.0.7",
        { deviceId := "dev-a", deviceName := "Alice", servicePort := 8080
        , isHolding := false, heldFile := "" })]).2
    [] "10.0.0.7"
    { deviceId := "dev-a", deviceName := "Alice", servicePort := 8080
    , isHolding := false, heldFile := "" }
    [] rfl (by decide) (by simp)

/-- C2: a beacon whose `deviceId` equals the local identity's id leaves
the registry unchanged and emits no event. -/
theorem listener_self_filter (localId : String) (r : Registry)
    (ip : String) (pkt : BeaconPacket) (h : pkt.deviceId = localId) :
    processBeacon localId r ip pkt = (r, []) := by
  simp [processBeacon, h]

theorem listener_self_filter_witness :
    processBeacon "me" [] "10.0.0.7"
      { deviceId := "me", deviceName := "Me", servicePort := 8080
      , isHolding := false, heldFile := "" } = ([], []) :=
  listener_self_filter "me" [] "10.0.0.7"
    { deviceId := "me", deviceName := "Me", servicePort := 8080
    , isHolding := false, heldFile := "" } rfl

/-- C3: a `[PEER_FOUND]` event is emitted exactly once per distinct
non-local device id — on the first beacon from that id — and never
again on subsequent beacons. -/
theorem peer_found_once (localId d : String)
    (msgs : List (String × BeaconPacket)) (hd : d ≠ localId) :
    countPeerFound d (processSeq localId [] msgs).2 =
      (if msgs.any (fun m => m.2.deviceId == d) then 1 else 0) ∧
    ∀ pre : List (String × BeaconPacket), ∀ ip : String,
      ∀ pkt : BeaconPacket, ∀ post : List (String × BeaconPacket),
        msgs = pre ++ (ip, pkt) :: post →
        pkt.deviceId = d →
        (∀ m ∈ pre, m.2.deviceId ≠ d) →
        (processBeacon localId (processSeq localId [] pre).1 ip pkt).2 =
          [Event.peerFound (mkPeer ip pkt)] := by
  constructor
  · have h := countPeerFound_processSeq localId d hd msgs []
    simpa [rlookup] using h
  · intro pre ip pkt post _ hpkt hpre
    have hnone : rlookup d (processSeq localId [] pre).1 = none := by
      rw [rlookup_processSeq_untouched localId d pre hpre]
      rfl
    have hself : ¬ (pkt.deviceId = localId) := fun h => hd (hpkt ▸ h)
    simp [processBeacon, hself, hpkt ▸ hnone]

theorem peer_found_once_witness :
    countPeerFound "dev-a"
      (processSeq "me" []
        [("10.0.0.7",
          { deviceId := "dev-a", deviceName := "Alice", servicePort := 8080
          , isHolding := true, heldFile := "a.txt" })]).2 =
      (if ([("10.0.0.7",
            ({ deviceId := "dev-a", deviceName := "Alice"
             , servicePort := 8080, isHolding := true
             , heldFile := "a.txt" } : BeaconPacket))].any
          (fun m => m.2.deviceId == "dev-a")) then 1 else 0) ∧
    (processBeacon "me"
      (processSeq "me" [] ([] : List (String × BeaconPacket))).1 "10.0.0.7"
      { deviceId := "dev-a", deviceName := "Alice", servicePort := 8080
      , isHolding := true, heldFile := "a.txt" }).2 =
      [Event.peerFound (mkPeer "10.0.0.7"
        { deviceId := "dev-a", deviceName := "Alice", servicePort := 8080
        , isHolding := true, heldFile := "a.txt" })] :=
  ⟨(peer_found_once "me" "dev-a"
      [("10.0.0.7",
        { deviceId := "dev-a", deviceName := "Alice", servicePort := 8080
        , isHolding := true, heldFile := "a.txt" })] (by decide)).1,
   (peer_found_once "me" "dev-a"
      [("10.0.0.7",
        { deviceId := "dev-a", deviceName := "Alice", servicePort := 8080
        , isHolding := true, heldFile := "a.txt" })] (by decide)).2
     [] "10.0.0.7"
     { deviceId := "dev-a", deviceName := "Alice", servicePort := 8080
     , isHolding := true, heldFile := "a.txt" }
     [] rfl rfl (by simp)⟩

/-- C4: for a beacon from an already-registered peer, `[GRAB_UPDATE]`
is emitted iff `isHolding` or `heldFile` differs from the stored values;
the entry is overwritten either way. -/
theorem grab_update_iff (localId : String) (r : Registry) (ip : String)
    (pkt : BeaconPacket) (old : Peer)
    (hself : pkt.deviceId ≠ localId)
    (hold : rlookup pkt.deviceId r = some old) :
    (processBeacon localId r ip pkt).2 =
      (if old.isHolding ≠ pkt.isHolding ∨ old.heldFile ≠ pkt.heldFile then
        [Event.grabUpdate (mkPeer ip pkt)]
      else []) ∧
    rlookup pkt.deviceId (processBeacon localId r ip pkt).1 =
      some (mkPeer ip pkt) := by
  constructor
  · simp [processBeacon, hself, hold]
  · rw [processBeacon_registry]
    simp [hself, rlookup_upsert_self]

theorem grab_update_iff_witness :
    (processBeacon "me"
      [("dev-a",
        { id := "dev-a", ip := "10.0.0.7", name := "Alice"
        , isHolding := false, heldFile := "" })] "10.0.0.7"
      { deviceId := "dev-a", deviceName := "Alice", servicePort := 8080
      , isHolding := true, heldFile := "a.txt" }).2 =
      (if ({ id := "dev-a", ip := "10.0.0.7", name := "Alice"
           , isHolding := false, heldFile := "" } : Peer).isHolding ≠
            ({ deviceId := "dev-a", deviceName := "Alice"
             , servicePort := 8080, isHolding := true
             , heldFile := "a.txt" } : BeaconPacket).isHolding ∨
          ({ id := "dev-a", ip := "10.0.0.7", name := "Alice"
           , isHolding := false, heldFile := "" } : Peer).heldFile ≠
            ({ deviceId := "dev-a", deviceName := "Alice"
             , servicePort := 8080, isHolding := true
             , heldFile := "a.txt" } : BeaconPacket).heldFile then
        [Event.grabUpdate (mkPeer "10.0.0.7"
          { deviceId := "dev-a", deviceName := "Alice", servicePort := 8080
          , isHolding := true, heldFile := "a.txt" })]
      else []) ∧
    rlookup "dev-a"
      (processBeacon "me"
        [("dev-a",
          { id := "dev-a", ip := "10.0.0.7", name := "Alice"
          , isHolding := false, heldFile := "" })] "10.0.0.7"
        { deviceId := "dev-a", deviceName := "Alice", servicePort := 8080
        , isHolding := true, heldFile := "a.txt" }).1 =
      some (mkPeer "10.0.0.7"
        { deviceId := "dev-a", deviceName := "Alice", servicePort := 8080
        , isHolding := true, heldFile := "a.txt" }) :=
  grab_update_iff "me"
    [("dev-a",
      { id := "dev-a", ip := "10.0.0.7", name := "Alice"
      , isHolding := false, heldFile := "" })] "10.0.0.7"
    { deviceId := "dev-a", deviceName := "Alice", servicePort := 8080
    , isHolding := true, heldFile := "a.txt" }
    { id := "dev-a", ip := "10.0.0.7", name := "Alice"
    , isHolding := false, heldFile := "" }
    (by decide) (by simp [rlookup])

/-! ### Grab state and the broadcaster -/

/-- The per-process device identity (`deviceID`, `deviceName` fields of
`Discovery`). -/
structure Identity where
  deviceId : String
  deviceName : String
  deriving DecidableEq, Repr

/-- The grab state held in `Discovery` (`isHolding`, `heldFile`). -/
structure GrabState where
  isHolding : Bool
  heldFile : String
  deriving DecidableEq, Repr

/-- The zero-valued grab state a fresh `Discovery` starts with. -/
def GrabState.init : GrabState := { isHolding := false, heldFile := "" }

/-- `SetGrab(filename)`: sets `isHolding = true`, `heldFile = filename`. -/
def SetGrab (g : GrabState) (filename : String) : GrabState :=
  { g with isHolding := true, heldFile := filename }

/-- `ClearGrab()`: sets `isHolding = false`, `heldFile = ""`. -/
def ClearGrab (g : GrabState) : GrabState :=
  { g with isHolding := false, heldFile := "" }

/-- `IsHolding()`: the read the broadcaster (and anyone else) performs
under `grabMu.RLock`. -/
def readGrab (g : GrabState) : Bool × String := (g.isHolding, g.heldFile)

/-- The packet `startBeacon` builds on each tick from the identity and
the current grab state. -/
def buildBeacon (ident : Identity) (g : GrabState) : BeaconPacket :=
  { deviceId := ident.deviceId
  , deviceName := ident.deviceName
  , servicePort := 8080
  , isHolding := g.isHolding
  , heldFile := g.heldFile }

/-- The two grab-state operations the command interface can trigger. -/
inductive GrabOp where
  | set (f : String)
  | clear
  deriving DecidableEq, Repr

def applyGrabOp (g : GrabState) : GrabOp → GrabState
  | .set f => SetGrab g f
  | .clear => ClearGrab g

/-- Grab state reached from the initial state by a sequence of
operations. -/
def runGrabOps (ops : List GrabOp) : GrabState :=
  ops.foldl applyGrabOp GrabState.init

/-- The spec's invariant on a grab state: `heldFile` non-empty iff
`isHolding`. -/
def grabInv (g : GrabState) : Prop :=
  g.heldFile ≠ "" ↔ g.isHolding = true

/-- The spec's invariant on a beacon packet. -/
def beaconInv (p : BeaconPacket) : Prop :=
  p.heldFile ≠ "" ↔ p.isHolding = true

/-- C5 counterexample: `SetGrab("")` — reachable from the initial state
— yields `isHolding = true` with `heldFile = ""`, violating the
invariant; so not every `SetGrab` preserves it. -/
theorem grab_inv_cex :
    ¬ grabInv (runGrabOps [GrabOp.set ""]) := by
  intro h
  have h1 : (runGrabOps [GrabOp.set ""]).heldFile = "" := rfl
  have h2 : (runGrabOps [GrabOp.set ""]).isHolding = true := rfl
  exact (h.mpr h2) h1

/-- C5 (amended): every reachable grab state — and every beacon built
from it — satisfies the invariant, provided every `SetGrab` in the run
carries a non-empty filename; `ClearGrab` needs no side condition. -/
theorem grab_inv_amended (ops : List GrabOp) (ident : Identity)
    (h : ∀ f, GrabOp.set f ∈ ops → f ≠ "") :
    grabInv (runGrabOps ops) ∧
    beaconInv (buildBeacon ident (runGrabOps ops)) := by
  have hrun : grabInv (runGrabOps ops) := by
    have main : ∀ ops' : List GrabOp, ∀ g : GrabState,
        (∀ f, GrabOp.set f ∈ ops' → f ≠ "") → grabInv g →
        grabInv (ops'.foldl applyGrabOp g) := by
      intro ops'
      induction ops' with
      | nil => intro g _ hg; simpa using hg
      | cons op rest ih =>
          intro g hops hg
          simp only [List.foldl_cons]
          apply ih
          · intro f hf
            exact hops f (List.mem_cons_of_mem _ hf)
          · cases op with
            | set f =>
                have hf : f ≠ "" := hops f (List.mem_cons_self _ _)
                simp [applyGrabOp, SetGrab, grabInv, hf]
            | clear => simp [applyGrabOp, ClearGrab, grabInv]
    apply main ops GrabState.init h
    simp [grabInv, GrabState.init]
  refine ⟨hrun, ?_⟩
  simpa [beaconInv, buildBeacon, grabInv] using hrun

theorem grab_inv_amended_witness :
    grabInv (runGrabOps [GrabOp.set "report.pdf", GrabOp.clear]) ∧
    beaconInv (buildBeacon { deviceId := "me", deviceName := "Host" }
      (runGrabOps [GrabOp.set "report.pdf", GrabOp.clear])) :=
  grab_inv_amended [GrabOp.set "report.pdf", GrabOp.clear]
    { deviceId := "me", deviceName := "Host" }
    (by intro f hf; simp at hf; simp [hf])

/-- One broadcaster tick: read the grab state under `grabMu.RLock` and
build the packet; the grab state itself is returned unchanged, since
the tick only reads it. -/
def broadcastTick (ident : Identity) (g : GrabState) :
    GrabState × BeaconPacket :=
  (g, buildBeacon ident g)

/-- `n` consecutive broadcaster ticks threaded through the grab state. -/
def broadcastTicks (ident : Identity) : Nat → GrabState → GrabState
  | 0, g => g
  | n + 1, g => broadcastTicks ident n (broadcastTick ident g).1

theorem broadcastTicks_id (ident : Identity) (n : Nat) (g : GrabState) :
    broadcastTicks ident n g = g := by
  induction n generalizing g with
  | zero => rfl
  | succ n ih => simp [broadcastTicks, broadcastTick, ih]

/-- C6: `SetGrab(f)` makes the grab read return `(true, f)` and a
subsequent `ClearGrab()` makes it return `(false, "")`, regardless of
how many broadcaster ticks (pure reads building beacons) are
interleaved. -/
theorem setgrab_cleargrab_reads (ident : Identity) (g : GrabState)
    (f : String) (n m : Nat) :
    readGrab (broadcastTicks ident n (SetGrab g f)) = (true, f) ∧
    readGrab (broadcastTicks ident m
      (ClearGrab (broadcastTicks ident n (SetGrab g f)))) = (false, "") := by
  constructor
  · rw [broadcastTicks_id]; rfl
  · rw [broadcastTicks_id, broadcastTicks_id]; rfl

/-! ### File server -/

/-- Go `filepath.Base` on slash-separated paths (URL paths only contain
`/`): empty path gives `"."`; otherwise strip trailing separators and
keep everything after the last separator; an all-separator path gives
`"/"`. -/
def goBase (path : String) : String :=
  if path = "" then "."
  else
    let rp := path.data.reverse.dropWhile (fun c => c = '/')
    let rq := rp.takeWhile (fun c => c ≠ '/')
    if rq = [] then "/" else String.mk rq.reverse

/-- Status codes `handleFileServe` can answer with. -/
inductive HttpStatus where
  | ok
  | badRequest
  | notFound
  deriving DecidableEq, Repr

/-- The observable response of `handleFileServe`: status, the
`Content-Disposition` header, and which file is served. -/
structure ServeResponse where
  status : HttpStatus
  contentDisposition : Option String
  servedFile : Option String
  deriving DecidableEq, Repr

/-- `handleFileServe` with the shared directory's file names as an
explicit argument: `filename := filepath.Base(r.URL.Path)`; respond 400
when it is `""` or `"."`, 404 when no such file exists in the shared
directory, else 200 with an attachment header. -/
def handleFileServe (sharedFiles : List String) (urlPath : String) :
    ServeResponse :=
  let filename := goBase urlPath
  if filename = "" ∨ filename = "." then
    { status := .badRequest, contentDisposition := none, servedFile := none }
  else if sharedFiles.contains filename then
    { status := .ok
    , contentDisposition := some ("attachment; filename=" ++ filename)
    , servedFile := some filename }
  else
    { status := .notFound, contentDisposition := none, servedFile := none }

/-- C7 counterexample: `GET /file/` does not get a bad-request status —
`filepath.Base("/file/")` is `"file"`, so with no file named `"file"`
shared the handler answers 404, not 400. -/
theorem file_serve_cex :
    (handleFileServe ["demo.txt"] "/file/").status = HttpStatus.notFound ∧
    (handleFileServe ["demo.txt"] "/file/").status ≠ HttpStatus.badRequest := by
  decide

/-- C7 (amended): `{name}` is resolved by base name only and a
nonexistent file gets 404; `GET /file/` resolves the name to `"file"`
(the base name of the path), so it is served as a request ffor a file
named `"file"` — 404 when absent, 200 when present — and never 400;
the 400 branch requires the base name to be `""` or `"."`. -/
theorem file_serve_amended (sharedFiles : List String) (urlPath : String)
    (h1 : goBase urlPath ≠ "") (h2 : goBase urlPath ≠ ".")
    (h3 : goBase urlPath ∉ sharedFiles) :
    (handleFileServe sharedFiles urlPath).status = HttpStatus.notFound ∧
    goBase "/file/" = "file" ∧
    (handleFileServe sharedFiles "/file/").status =
      (if sharedFiles.contains "file" then HttpStatus.ok
       else HttpStatus.notFound) := by
  refine ⟨?_, by decide, ?_⟩
  · simp only [handleFileServe]
    have hor : ¬ (goBase urlPath = "" ∨ goBase urlPath = ".") := by
      intro hor; cases hor with
      | inl h => exact h1 h
      | inr h => exact h2 h
    rw [if_neg hor, if_neg (by simp [h3])]
  · have hb : goBase "/file/" = "file" := by decide
    have hok : ¬ (("file" : String) = "" ∨ ("file" : String) = ".") := by
      decide
    simp only [handleFileServe, hb]
    rw [if_neg hok]
    by_cases hm : "file" ∈ sharedFiles <;> simp [hm]

theorem file_serve_amended_witness :
    (handleFileServe ["demo.txt"] "/file/nonexistent.txt").status =
      HttpStatus.notFound ∧
    goBase "/file/" = "file" ∧
    (handleFileServe ["demo.txt"] "/file/").status =
      (if (["demo.txt"] : List String).contains "file" then HttpStatus.ok
       else HttpStatus.notFound) :=
  file_serve_amended ["demo.txt"] "/file/nonexistent.txt"
    (by decide) (by decide) (by decide)

/-! ### Downloader -/

/-- An HTTP response as `DownloadFile` sees it: Go's `resp.StatusCode`,
`resp.Status` (the status line text, e.g. `"404 Not Found"`), and the
body bytes. -/
structure HttpResponse where
  statusCode : Nat
  status : String
  body : List Nat
  deriving DecidableEq, Repr

/-- The outcome of `DownloadFile`: the returned error or the bytes
written, plus whether the destination file was created (whether
`os.Create(destPath)` was reached). -/
structure DownloadResult where
  outcome : Except String (List Nat)
  destCreated : Bool
  deriving Repr

/-- `DownloadFile(url, destPath)` with its environment explicit:
`fetched` is the result of `http.Get(url)` (`none` on a transport
error); `createOk` and `copyOk` say whether `os.Create` and `io.Copy`
succeed. The status check comes before the destination file is
created. -/
def DownloadFile (fetched : Option HttpResponse) (createOk copyOk : Bool) :
    DownloadResult :=
  match fetched with
  | none => { outcome := .error "failed to download", destCreated := false }
  | some resp =>
      if resp.statusCode ≠ 200 then
        { outcome := .error ("bad status: " ++ resp.status)
        , destCreated := false }
      else if createOk = false then
        { outcome := .error "failed to create file", destCreated := false }
      else if copyOk = false then
        { outcome := .error "failed to write file", destCreated := true }
      else
        { outcome := .ok resp.body, destCreated := true }

/-- C8: a response whose status is not a success fails the download
with a bad-status error carrying the status text, and the destination
file is never created (the error comes before `os.Create`). -/
theorem download_bad_status (resp : HttpResponse) (createOk copyOk : Bool)
    (h : ¬ (200 ≤ resp.statusCode ∧ resp.statusCode < 300)) :
    (DownloadFile (some resp) createOk copyOk).outcome =
      Except.error ("bad status: " ++ resp.status) ∧
    (DownloadFile (some resp) createOk copyOk).destCreated = false := by
  have hne : resp.statusCode ≠ 200 := by
    intro he
    exact h ⟨he.ge, by omega⟩
  simp [DownloadFile, hne]

theorem download_bad_status_witness :
    (DownloadFile
      (some { statusCode := 404, status := "404 Not Found", body := [] })
      true true).outcome =
      Except.error ("bad status: " ++ "404 Not Found") ∧
    (DownloadFile
      (some { statusCode := 404, status := "404 Not Found", body := [] })
      true true).destCreated = false :=
  download_bad_status
    { statusCode := 404, status := "404 Not Found", body := [] }
    true true (by decide)

/-! ### Beacon wire format -/

/-- A flat JSON value, enough for the beacon wire object. -/
inductive JsonVal where
  | str (s : String)
  | num (n : Nat)
  | bool (b : Bool)
  deriving DecidableEq, Repr

/-- A flat JSON object: ordered key/value pairs. -/
abbrev JsonObj := List (String × JsonVal)

def jlookup (k : String) : JsonObj → Option JsonVal
  | [] => none
  | e :: rest => if e.1 = k then some e.2 else jlookup k rest

/-- `json.Marshal` of a `BeaconPacket`, at the object level: the struct
tags name the keys, and the `heldFile,omitempty` tag drops that key
when the string is empty. -/
def marshalBeacon (p : BeaconPacket) : JsonObj :=
  [("deviceId", JsonVal.str p.deviceId)
  , ("deviceName", JsonVal.str p.deviceName)
  , ("servicePort", JsonVal.num p.servicePort)
  , ("isHolding", JsonVal.bool p.isHolding)]
  ++ (if p.heldFile = "" then [] else [("heldFile", JsonVal.str p.heldFile)])

/-- Read a string field as `json.Unmarshal` does: an absent key keeps
the Go zero value `""`, a mistyped value is an error. -/
def jstr (o : JsonObj) (k : String) : Option String :=
  match jlookup k o with
  | none => some ""
  | some (JsonVal.str s) => some s
  | some _ => none

def jnum (o : JsonObj) (k : String) : Option Nat :=
  match jlookup k o with
  | none => some 0
  | some (JsonVal.num n) => some n
  | some _ => none

def jbool (o : JsonObj) (k : String) : Option Bool :=
  match jlookup k o with
  | none => some false
  | some (JsonVal.bool b) => some b
  | some _ => none

/-- `json.Unmarshal` of a wire object into a `BeaconPacket`. -/
def unmarshalBeacon (o : JsonObj) : Option BeaconPacket := do
  let deviceId ← jstr o "deviceId"
  let deviceName ← jstr o "deviceName"
  let servicePort ← jnum o "servicePort"
  let isHolding ← jbool o "isHolding"
  let heldFile ← jstr o "heldFile"
  pure { deviceId := deviceId, deviceName := deviceName
       , servicePort := servicePort, isHolding := isHolding
       , heldFile := heldFile }

/-- C9: encoding a `BeaconPacket` to the wire object and decoding it
back yields the packet unchanged — in particular `deviceId`,
`isHolding` and `heldFile` are preserved (the `omitempty` key decodes
back to the zero value `""`). -/
theorem beacon_roundtrip (p : BeaconPacket) :
    unmarshalBeacon (marshalBeacon p) = some p := by
  obtain ⟨did, dn, sp, ih, hf⟩ := p
  by_cases h : hf = "" <;>
    simp [marshalBeacon, unmarshalBeacon, jstr, jnum, jbool, jlookup, h]

/-! ### Command interface -/

/-- Go `strings.TrimSpace`: drop whitespace from both ends. -/
def goTrim (s : String) : String :=
  String.mk
    (((s.data.dropWhile Char.isWhitespace).reverse.dropWhile
        Char.isWhitespace).reverse)

/-- Go `strings.SplitN(s, " ", 2)`: the part before the first space and
the remainder, or the whole string when it has no space. -/
def goSplitN2 (s : String) : List String :=
  if s.data.contains ' ' then
    [String.mk (s.data.takeWhile (fun c => c ≠ ' '))
    , String.mk ((s.data.dropWhile (fun c => c ≠ ' ')).tail)]
  else [s]

/-- The externally visible effects of one line handled by
`listenForCommands`: grab-state changes, a dispatched download, emitted
`[LOCAL_IP]`/`[FILE]` events, or an unknown-command warning. -/
inductive CmdEffect where
  | setGrab (f : String)
  | clearGrab
  | download (url destPath : String)
  | localIp
  | listFiles
  | warnUnknown (cmd : String)
  deriving DecidableEq, Repr

/-- One iteration of `listenForCommands` on one input line. -/
def processLine (text : String) : List CmdEffect :=
  let line := goTrim text
  if line = "" then []
  else
    let parts := goSplitN2 line
    let cmd := parts.headD ""
    if cmd = "GRAB" then
      match parts with
      | _ :: filename :: _ => [CmdEffect.setGrab filename]
      | _ => []
    else if cmd = "RELEASE" then [CmdEffect.clearGrab]
    else if cmd = "DOWNLOAD" then
      match parts with
      | _ :: rest :: _ =>
          match goSplitN2 rest with
          | [url, destPath] => [CmdEffect.download url destPath]
          | _ => []
      | _ => []
    else if cmd = "GET_IP" then [CmdEffect.localIp]
    else if cmd = "LIST_FILES" then [CmdEffect.listFiles]
    else [CmdEffect.warnUnknown cmd]

theorem goSplitN2_download_prefix (rest : String) :
    goSplitN2 ("DOWNLOAD " ++ rest) = ["DOWNLOAD", rest] := rfl

theorem goSplitN2_of_no_space (s : String)
    (h : (goSplitN2 s).length = 1) : goSplitN2 s = [s] := by
  unfold goSplitN2 at h ⊢
  by_cases hc : s.data.contains ' '
  · rw [if_pos hc] at h
    simp at h
  · rw [if_neg hc]

/-- C10: a `GRAB` line with no filename and a `DOWNLOAD` line with
fewer than two arguments are silently ignored — no effect at all —
while a line whose first token is not one of the five known commands
produces exactly an unknown-command warning. -/
theorem cmd_silent_ignore (text : String) :
    (goTrim text = "GRAB" → processLine text = []) ∧
    (goTrim text = "DOWNLOAD" → processLine text = []) ∧
    (∀ rest : String, goTrim text = "DOWNLOAD " ++ rest →
      (goSplitN2 rest).length = 1 → processLine text = []) ∧
    (goTrim text ≠ "" →
      (goSplitN2 (goTrim text)).headD "" ∉
        (["GRAB", "RELEASE", "DOWNLOAD", "GET_IP", "LIST_FILES"] :
          List String) →
      processLine text = [CmdEffect.warnUnknown
        ((goSplitN2 (goTrim text)).headD "")]) := by
  refine ⟨?_, ?_, ?_, ?_⟩
  · intro h
    have h1 : goSplitN2 "GRAB" = ["GRAB"] := rfl
    simp [processLine, h, h1]
  · intro h
    have h1 : goSplitN2 "DOWNLOAD" = ["DOWNLOAD"] := rfl
    simp [processLine, h, h1]
  · intro rest h hlen
    have h1 : goSplitN2 ("DOWNLOAD " ++ rest) = ["DOWNLOAD", rest] :=
      goSplitN2_download_prefix rest
    have h2 : goSplitN2 rest = [rest] := goSplitN2_of_no_space rest hlen
    have h3 : "DOWNLOAD " ++ rest ≠ "" := by
      intro he
      have : ("DOWNLOAD " ++ rest).data = [] := by rw [he]
      simp at this
    simp [processLine, h, h1, h2, h3]
  · intro h0 hnotin
    simp only [List.mem_cons, List.not_mem_nil, or_false, not_or] at hnotin
    obtain ⟨h1, h2, h3, h4, h5⟩ := hnotin
    simp only [processLine]
    rw [if_neg h0, if_neg h1, if_neg h2, if_neg h3, if_neg h4, if_neg h5]

theorem cmd_silent_ignore_witness :
    processLine "GRAB" = [] ∧
    processLine "DOWNLOAD http://10.0.0.7:8080/file/a.txt" = [] ∧
    processLine "FOO" =
      [CmdEffect.warnUnknown ((goSplitN2 (goTrim "FOO")).headD "")] :=
  ⟨(cmd_silent_ignore "GRAB").1 (by decide),
   (cmd_silent_ignore "DOWNLOAD http://10.0.0.7:8080/file/a.txt").2.2.1
     "http://10.0.0.7:8080/file/a.txt" (by decide) (by decide),
   (cmd_silent_ignore "FOO").2.2.2 (by decide) (by decide)⟩

end AirShare
